import Mathlib

/-!
Verification of the Fortune Rush game core (Cloudflare worker backend).

The definitions below are a shallow embedding of the TypeScript sources:
* `apps/worker/src/game-engine.ts` — the pure rules engine, and
* the `GameRoom` durable object — the room actor (create / join / ready /
  start / action handlers and the internal `resolveAndAdvance`).

Modelling conventions:
* JS `number` values holding points, stakes and pots are modelled as `Int`
  (they are produced by integer arithmetic only); counters and indices are
  `Nat`.
* A JS `Record<string, T>` with insertion-order keys is modelled as an
  association list `List (String × T)`; lookup takes the first match, and
  the handlers only insert a key after checking it is absent, which keeps
  keys unique exactly as the JS object does.
* Randomness (`crypto.getRandomValues`) and time (`Date.now()`) are passed
  in as explicit parameters (`byte`, `ts`, fresh credentials).
* A handler mutating `this.roomState` in place is modelled as a function
  returning the updated state together with the HTTP-level response; every
  rejection in the source returns before any mutation, and the model makes
  this explicit by returning the input state unchanged alongside the error.
-/

namespace FortuneRush

/- The `GAME_CONFIG` constants from `game-engine.ts`. -/
namespace GAME_CONFIG

def SUCCESS_THRESHOLD : Nat := 40

def SUCCESS_REWARD : Int := 5

def FAILURE_PENALTY : Int := 10

def WIN_THRESHOLD : Int := 150

def MAX_STEPS : Nat := 10

def MIN_STAKE : Int := 5

def MAX_STAKE : Int := 50

def MIN_PLAYERS : Nat := 2

def MAX_PLAYERS : Nat := 8

def STARTING_POINTS : Int := 100

end GAME_CONFIG

/-- A player in a game room (`Player` in `types.ts`). -/
structure Player where
  id : String
  secret : String
  nickname : String
  points : Int
  ready : Bool
  connected : Bool
deriving DecidableEq, Repr

/-- Result of a captain challenge roll (`RollResult` in `types.ts`). -/
structure RollResult where
  success : Bool
  value : Nat
  timestamp : Nat
deriving DecidableEq, Repr

/-- A STAY / LEAVE decision. -/
inductive Decision where
  | STAY
  | LEAVE
deriving DecidableEq, Repr

/-- Lookup in the decisions record: `decisions[playerId]`. -/
def getDecision (decisions : List (String × Decision)) (pid : String) :
    Option Decision :=
  (decisions.find? (fun e => e.1 = pid)).map (·.2)

/-- Embedding of `rollChallenge` from `game-engine.ts`: the random byte drawn by
`crypto.getRandomValues` and the `Date.now()` timestamp are parameters. -/
def rollChallenge (byte : Nat) (ts : Nat) : RollResult :=
  let value := byte % 100 + 1
  { success := decide (GAME_CONFIG.SUCCESS_THRESHOLD ≤ value)
    value := value
    timestamp := ts }

/-- Embedding of `resolveRound` from `game-engine.ts`. -/
def resolveRound (players : List Player)
    (decisions : List (String × Decision)) (roll : RollResult) :
    List Player :=
  players.map fun player =>
    match getDecision decisions player.id with
    | some Decision.LEAVE => player
    | some Decision.STAY =>
        let pointChange : Int :=
          if roll.success then GAME_CONFIG.SUCCESS_REWARD
          else -GAME_CONFIG.FAILURE_PENALTY
        { player with points := max 0 (player.points + pointChange) }
    | none => player

/-- Stable descending insertion into a list sorted by points.  Together
with `sortByPointsDesc` this models the JS call
`[...players].sort((a, b) => b.points - a.points)`: ECMAScript sort is
specified to be stable, and the output of a stable sort consistent with a
total preorder comparator is unique, so any stable descending sort is a
faithful embedding of that call. -/
def insertDesc (a : Player) : List Player → List Player
  | [] => [a]
  | b :: t => if b.points ≤ a.points then a :: b :: t else b :: insertDesc a t

/-- Stable sort of players by points, descending (see `insertDesc`). -/
def sortByPointsDesc : List Player → List Player
  | [] => []
  | a :: t => insertDesc a (sortByPointsDesc t)

/-- Embedding of `checkWinCondition` from `game-engine.ts`.  The third branch of the
source reads `activePlayers[0]` under `activePlayers.length === 1`, which
the match on a singleton list reproduces. -/
def checkWinCondition (players : List Player) (step maxSteps : Nat)
    (winThreshold : Int) : Option String :=
  match players.find? (fun p => winThreshold ≤ p.points) with
  | some thresholdWinner => some thresholdWinner.id
  | none =>
    if maxSteps ≤ step then
      ((sortByPointsDesc players).head?).map (·.id)
    else
      match players.filter (fun p => 0 < p.points) with
      | [active] => some active.id
      | _ => none

/-- Embedding of `distributePot` from `game-engine.ts`. -/
def distributePot (players : List Player) (winnerId : String) (pot : Int) :
    List Player :=
  players.map fun player =>
    if player.id = winnerId then
      { player with points := player.points + pot }
    else player

/-- Result record of `collectStakes`. -/
structure CollectResult where
  players : List Player
  pot : Int
deriving DecidableEq, Repr

/-- Embedding of `collectStakes` from `game-engine.ts`. -/
def collectStakes (players : List Player) (stake : Int) : CollectResult :=
  let pot := stake * players.length
  let updatedPlayers := players.map fun player =>
    { player with points := player.points - stake }
  { players := updatedPlayers, pot := pot }

/-- Embedding of `getNextCaptain` from `game-engine.ts` (round robin). -/
def getNextCaptain (currentIndex playerCount : Nat) : Nat :=
  (currentIndex + 1) % playerCount

/-- Embedding of `allDecisionsMade` from `game-engine.ts`. -/
def allDecisionsMade (players : List Player)
    (decisions : List (String × Decision)) (captainId : String) : Bool :=
  (players.filter fun p => p.id ≠ captainId ∧ p.connected).all
    fun p => (getDecision decisions p.id).isSome

/-- Room status (`RoomState.status` in `types.ts`). -/
inductive Status where
  | LOBBY
  | PLAYING
  | FINISHED
deriving DecidableEq, Repr

/-- Round phase (`RoomState.phase` in `types.ts`). -/
inductive Phase where
  | WAIT_READY
  | CAPTAIN_TURN
  | DECISIONS
  | RESOLUTION
deriving DecidableEq, Repr

/-- History log entry (`GameEvent` in `types.ts`).  The untyped
`Record<string, unknown>` payload is flattened to string key/value pairs;
no claim below inspects payload contents, only which events exist. -/
structure GameEvent where
  type : String
  timestamp : Nat
  data : List (String × String)
deriving DecidableEq, Repr

/-- The authoritative room state (`RoomState` in `types.ts`). -/
structure RoomState where
  roomToken : String
  status : Status
  stake : Int
  pot : Int
  maxPlayers : Nat
  players : List Player
  hostId : String
  captainIndex : Nat
  phase : Phase
  step : Nat
  maxSteps : Nat
  winThreshold : Int
  lastRoll : Option RollResult
  decisions : List (String × Decision)
  history : List GameEvent
  winnerId : Option String
deriving DecidableEq, Repr

/-- Embedding of `createInitialState` from `game-engine.ts`. -/
def createInitialState (roomToken : String) (stake : Int)
    (maxPlayers : Nat) : RoomState :=
  { roomToken := roomToken
    status := Status.LOBBY
    stake := stake
    pot := 0
    maxPlayers := maxPlayers
    players := []
    hostId := ""
    captainIndex := 0
    phase := Phase.WAIT_READY
    step := 0
    maxSteps := GAME_CONFIG.MAX_STEPS
    winThreshold := GAME_CONFIG.WIN_THRESHOLD
    lastRoll := none
    decisions := []
    history := []
    winnerId := none }

/-- An HTTP-level rejection: the status code and `error` message of the
`jsonResponse` the handler returns on a failed validation. -/
structure ErrResponse where
  status : Nat
  error : String
deriving DecidableEq, Repr

/-- The HTTP status codes the `GameRoom` handlers use for authentication
and authorization rejections: 401 for missing or invalid credentials and
401 for a bad secret, 403 for a non-host calling start and for a
non-captain rolling.  All other rejections use 400 or 404. -/
def authErrorStatuses : List Nat := [401, 403]

/-- Embedding of `GameRoom.logEvent`: append to history, then trim with `slice(-50)`
once the length exceeds 100. -/
def logEvent (s : RoomState) (type : String) (ts : Nat)
    (data : List (String × String)) : RoomState :=
  let history := s.history ++ [{ type := type, timestamp := ts, data := data }]
  let history :=
    if 100 < history.length then history.drop (history.length - 50)
    else history
  { s with history := history }

/-- Embedding of `GameRoom.validatePlayer`: find the player by id and check the
secret. -/
def validatePlayer (s : RoomState) (playerId playerSecret : String) :
    Option Player :=
  match s.players.find? (fun p => p.id = playerId) with
  | none => none
  | some player =>
    if player.secret ≠ playerSecret then none else some player

/-- In-place mutation of the player object returned by `find` (as in
`player.ready = !player.ready`): rewrite the first list entry whose id
matches. -/
def updateFirst (f : Player → Player) (pid : String) :
    List Player → List Player
  | [] => []
  | p :: rest =>
    if p.id = pid then f p :: rest else p :: updateFirst f pid rest

/-- Embedding of `GameRoom.handleCreate`.  The first component is the stored room state
afterwards (`this.roomState`), the second the HTTP response.  Fresh
randomness (`roomToken` was produced by the caller) and `Date.now()` are
parameters.  The JS falsiness tests `!stake` and `!maxPlayers` are the
zero tests. -/
def handleCreate (existing : Option RoomState) (stake : Int)
    (maxPlayers : Nat) (roomToken : String) (ts : Nat) :
    Option RoomState × Except ErrResponse Unit :=
  match existing with
  | some st => (some st, Except.error { status := 400, error := "Room already exists" })
  | none =>
    if stake = 0 ∨ stake < GAME_CONFIG.MIN_STAKE ∨ GAME_CONFIG.MAX_STAKE < stake then
      (none, Except.error { status := 400, error := "Invalid stake" })
    else if maxPlayers = 0 ∨ maxPlayers < GAME_CONFIG.MIN_PLAYERS ∨
        GAME_CONFIG.MAX_PLAYERS < maxPlayers then
      (none, Except.error { status := 400, error := "Invalid maxPlayers" })
    else
      let st := createInitialState roomToken stake maxPlayers
      let st := logEvent st "ROOM_CREATED" ts
        [("stake", toString stake), ("maxPlayers", toString maxPlayers)]
      (some st, Except.ok ())

/-- The ECMAScript `trim()`: drop leading and trailing whitespace.
Implemented on the character list so that it evaluates by kernel
reduction. -/
def jsTrim (s : String) : String :=
  String.mk
    (((s.data.dropWhile Char.isWhitespace).reverse.dropWhile
        Char.isWhitespace).reverse)

/-- The ECMAScript `toLowerCase()` on the character list (letter range),
kernel-reducible. -/
def jsToLower (s : String) : String :=
  String.mk (s.data.map Char.toLower)

/-- Embedding of `GameRoom.handleJoin` on an existing room (the room-missing 404 path
is the `existing = none` case of the storage, outside a state-transformer
model).  The freshly generated credentials are parameters. -/
def handleJoin (s : RoomState) (nickname : String) (pid secret : String)
    (ts : Nat) : RoomState × Except ErrResponse Unit :=
  if s.status ≠ Status.LOBBY then
    (s, Except.error { status := 400, error := "Game already started" })
  else if s.maxPlayers ≤ s.players.length then
    (s, Except.error { status := 400, error := "Room is full" })
  else if nickname = "" ∨ (jsTrim nickname).length < 1 ∨
      20 < (jsTrim nickname).length then
    (s, Except.error { status := 400, error := "Invalid nickname" })
  else if s.players.any
      (fun p => jsToLower p.nickname = jsToLower (jsTrim nickname)) then
    (s, Except.error { status := 400, error := "Nickname already taken" })
  else
    let player : Player :=
      { id := pid
        secret := secret
        nickname := jsTrim nickname
        points := GAME_CONFIG.STARTING_POINTS
        ready := false
        connected := false }
    let players := s.players ++ [player]
    let hostId := if players.length = 1 then player.id else s.hostId
    let s := { s with players := players, hostId := hostId }
    let s := logEvent s "PLAYER_JOINED" ts
      [("playerId", player.id), ("nickname", player.nickname)]
    (s, Except.ok ())

/-- Embedding of `GameRoom.handleReady` on an existing room: toggle the ready flag of
the authenticated player. -/
def handleReady (s : RoomState) (playerId playerSecret : Option String)
    (ts : Nat) : RoomState × Except ErrResponse Unit :=
  if s.status ≠ Status.LOBBY then
    (s, Except.error { status := 400, error := "Game already started" })
  else
    match playerId, playerSecret with
    | some pid, some sec =>
      match validatePlayer s pid sec with
      | none => (s, Except.error { status := 401, error := "Invalid credentials" })
      | some _ =>
        let s := { s with
          players := updateFirst (fun p => { p with ready := !p.ready }) pid s.players }
        let s := logEvent s "PLAYER_READY" ts [("playerId", pid)]
        (s, Except.ok ())
    | _, _ => (s, Except.error { status := 401, error := "Missing credentials" })

/-- Embedding of `GameRoom.handleStart` on an existing room. -/
def handleStart (s : RoomState) (playerId playerSecret : Option String)
    (ts : Nat) : RoomState × Except ErrResponse Unit :=
  if s.status ≠ Status.LOBBY then
    (s, Except.error { status := 400, error := "Game already started" })
  else
    match playerId, playerSecret with
    | some pid, some sec =>
      if pid ≠ s.hostId then
        (s, Except.error { status := 403, error := "Only host can start the game" })
      else
        match validatePlayer s pid sec with
        | none => (s, Except.error { status := 401, error := "Invalid credentials" })
        | some _ =>
          if s.players.length < GAME_CONFIG.MIN_PLAYERS then
            (s, Except.error { status := 400, error := "Not enough players" })
          else if !(s.players.all fun p => p.ready) then
            (s, Except.error { status := 400, error := "Not all players are ready" })
          else
            let result := collectStakes s.players s.stake
            let s := { s with
              players := result.players
              pot := result.pot
              status := Status.PLAYING
              phase := Phase.CAPTAIN_TURN
              step := 1
              captainIndex := 0
              decisions := [] }
            let s := logEvent s "GAME_STARTED" ts [("pot", toString s.pot)]
            (s, Except.ok ())
    | _, _ => (s, Except.error { status := 401, error := "Missing credentials" })

/-- The `else` arm of `resolveAndAdvance`: advance to the next round. -/
def advanceNextRound (s : RoomState) : RoomState :=
  { s with
    step := s.step + 1
    captainIndex := getNextCaptain s.captainIndex s.players.length
    phase := Phase.CAPTAIN_TURN
    decisions := []
    lastRoll := none }

/-- Embedding of `GameRoom.resolveAndAdvance`.  The JS truthiness test `if (winnerId)`
is false both for `null` and for the empty string, hence the nested
test. -/
def resolveAndAdvance (s : RoomState) (ts : Nat) : RoomState :=
  match s.lastRoll with
  | none => s
  | some roll =>
    let players := resolveRound s.players s.decisions roll
    let s1 := logEvent { s with players := players } "ROUND_RESOLVED" ts
      [("rollValue", toString roll.value), ("rollSuccess", toString roll.success)]
    match checkWinCondition players s.step s.maxSteps s.winThreshold with
    | none => advanceNextRound s1
    | some winnerId =>
      if winnerId = "" then advanceNextRound s1
      else
        logEvent
          { s1 with
            players := distributePot players winnerId s.pot
            status := Status.FINISHED
            winnerId := some winnerId
            pot := 0 }
          "GAME_FINISHED" ts [("winnerId", winnerId)]

/-- The request body type of an action (`ActionRequest` in `types.ts`). -/
inductive ActionType where
  | CAPTAIN_ROLL
  | STAY
  | LEAVE
deriving DecidableEq, Repr

/-- Embedding of `GameRoom.handleAction` on an existing room.  The random byte of the
potential roll and `Date.now()` are parameters.  Reading
`state.players[state.captainIndex]` out of bounds throws in JS and is
turned into a 500 by the catch-all in `fetch`; the model returns that 500
explicitly. -/
def handleAction (s : RoomState) (playerId playerSecret : Option String)
    (ty : ActionType) (byte ts : Nat) : RoomState × Except ErrResponse Unit :=
  if s.status ≠ Status.PLAYING then
    (s, Except.error { status := 400, error := "Game not in progress" })
  else
    match playerId, playerSecret with
    | some pid, some sec =>
      match validatePlayer s pid sec with
      | none => (s, Except.error { status := 401, error := "Invalid credentials" })
      | some _ =>
        match s.players.get? s.captainIndex with
        | none => (s, Except.error { status := 500, error := "Internal Server Error" })
        | some captain =>
          match ty with
          | ActionType.CAPTAIN_ROLL =>
            if s.phase ≠ Phase.CAPTAIN_TURN then
              (s, Except.error { status := 400, error := "Not captain turn phase" })
            else if pid ≠ captain.id then
              (s, Except.error { status := 403, error := "Only captain can roll" })
            else
              let roll := rollChallenge byte ts
              let s1 := logEvent
                { s with
                  lastRoll := some roll
                  decisions := [(captain.id, Decision.STAY)]
                  phase := Phase.DECISIONS }
                "CAPTAIN_ROLLED" ts
                [("captainId", captain.id), ("rollValue", toString roll.value)]
              if (s.players.filter fun p => p.connected ∨ 0 < p.points).length = 1 then
                (resolveAndAdvance s1 ts, Except.ok ())
              else
                (s1, Except.ok ())
          | ActionType.STAY | ActionType.LEAVE =>
            if s.phase ≠ Phase.DECISIONS then
              (s, Except.error { status := 400, error := "Not decision phase" })
            else if pid = captain.id then
              (s, Except.error { status := 400, error := "Captain cannot change decision" })
            else if (getDecision s.decisions pid).isSome then
              (s, Except.error { status := 400, error := "Already made decision" })
            else
              let d := if ty = ActionType.STAY then Decision.STAY else Decision.LEAVE
              let s1 := logEvent { s with decisions := s.decisions ++ [(pid, d)] }
                "PLAYER_DECISION" ts [("playerId", pid)]
              if allDecisionsMade s.players (s.decisions ++ [(pid, d)]) captain.id then
                (resolveAndAdvance s1 ts, Except.ok ())
              else
                (s1, Except.ok ())
    | _, _ => (s, Except.error { status := 401, error := "Missing credentials" })

/-- Embedding of `GameRoom.handleWebSocket` state effect: a connection carrying valid
credentials marks that player connected. -/
def wsConnect (s : RoomState) (playerId playerSecret : Option String) :
    RoomState :=
  match playerId, playerSecret with
  | some pid, some sec =>
    match validatePlayer s pid sec with
    | some _ =>
      { s with players := updateFirst (fun p => { p with connected := true }) pid s.players }
    | none => s
  | _, _ => s

/-- The close listener of `handleWebSocket`: mark the session player
disconnected. -/
def wsDisconnect (s : RoomState) (pid : String) : RoomState :=
  { s with players := updateFirst (fun p => { p with connected := false }) pid s.players }

/-- Room states reachable through the actor operations, starting from a
successful `create`.  Every constructor takes the first component of the
handler result, i.e. the state the actor stores, whether or not the
request was accepted (rejections leave the state unchanged). -/
inductive Reachable : RoomState → Prop where
  | create {stake : Int} {maxPlayers : Nat} {roomToken : String} {ts : Nat}
      {s : RoomState}
      (h : (handleCreate none stake maxPlayers roomToken ts).1 = some s) :
      Reachable s
  | join {s : RoomState} {nickname pid secret : String} {ts : Nat}
      (hr : Reachable s) :
      Reachable (handleJoin s nickname pid secret ts).1
  | ready {s : RoomState} {playerId playerSecret : Option String} {ts : Nat}
      (hr : Reachable s) :
      Reachable (handleReady s playerId playerSecret ts).1
  | start {s : RoomState} {playerId playerSecret : Option String} {ts : Nat}
      (hr : Reachable s) :
      Reachable (handleStart s playerId playerSecret ts).1
  | action {s : RoomState} {playerId playerSecret : Option String}
      {ty : ActionType} {byte ts : Nat}
      (hr : Reachable s) :
      Reachable (handleAction s playerId playerSecret ty byte ts).1
  | connect {s : RoomState} {playerId playerSecret : Option String}
      (hr : Reachable s) :
      Reachable (wsConnect s playerId playerSecret)
  | disconnect {s : RoomState} {pid : String}
      (hr : Reachable s) :
      Reachable (wsDisconnect s pid)

/-- The first element of a player list attaining the maximal points value
(the head of a stable descending sort). -/
def firstMaxAux : List Player → Option Player
  | [] => none
  | a :: t =>
    match firstMaxAux t with
    | none => some a
    | some m => if m.points ≤ a.points then some a else some m

/-- The inductive invariant maintained by every actor operation: points
are never negative, lobby players still hold their starting points, stake
stays in its validated range, the pot is never negative, and the winner is
recorded exactly in the FINISHED status. -/
def Inv (s : RoomState) : Prop :=
  (∀ p ∈ s.players, 0 ≤ p.points) ∧
  (s.status = Status.LOBBY →
    ∀ p ∈ s.players, p.points = GAME_CONFIG.STARTING_POINTS) ∧
  GAME_CONFIG.MIN_STAKE ≤ s.stake ∧
  s.stake ≤ GAME_CONFIG.MAX_STAKE ∧
  0 ≤ s.pot ∧
  (s.winnerId ≠ none ↔ s.status = Status.FINISHED)

/- Concrete inputs used by the counterexample and witness theorems. -/

/-- A player holding a (transiently possible) negative points value. -/
def cexPlayer : Player :=
  { id := "a", secret := "s", nickname := "A", points := -3,
    ready := false, connected := false }

/-- A successful concrete roll. -/
def cexRoll : RollResult := { success := true, value := 50, timestamp := 0 }

/-- Two players at 100 points. -/
def wPlayers : List Player :=
  [{ id := "a", secret := "sa", nickname := "A", points := 100,
     ready := true, connected := true },
   { id := "b", secret := "sb", nickname := "B", points := 100,
     ready := true, connected := true }]

/-- One recorded decision: player `a` stays. -/
def wDecisions : List (String × Decision) := [("a", Decision.STAY)]

/-- A successful roll for the witness round. -/
def wRoll : RollResult := { success := true, value := 50, timestamp := 0 }

/-- Scenario 1 of the spec: create(stake 10, maxPlayers 4), Alice and Bob
join, both toggle ready.  Built by running the actual handlers. -/
def created : RoomState :=
  ((handleCreate none 10 4 "AB12CD34" 0).1).getD
    (createInitialState "AB12CD34" 10 4)

/-- Scenario 1 after the two joins. -/
def joined2 : RoomState :=
  (handleJoin (handleJoin created "Alice" "pa" "sa" 1).1 "Bob" "pb" "sb" 2).1

/-- Scenario 1 lobby with both players ready. -/
def scenario1 : RoomState :=
  (handleReady (handleReady joined2 (some "pa") (some "sa") 3).1
    (some "pb") (some "sb") 4).1

/-- Scenario 1 started and the captain has rolled: phase DECISIONS. -/
def decisionsState : RoomState :=
  (handleAction (handleStart scenario1 (some "pa") (some "sa") 5).1
    (some "pa") (some "sa") ActionType.CAPTAIN_ROLL 60 6).1

/- A complete concrete game driven to FINISHED through the handlers:
stake 50, two players; the captain of each odd round (Alice) rolls a
failure and Bob leaves, the captain of each even round (Bob) rolls a
success and Alice leaves.  After round 9 Alice is at 0 points, Bob is the
only active player and wins by attrition. -/

/-- Fresh room of the full-game run (stake 50, maxPlayers 2). -/
def g0 : RoomState :=
  ((handleCreate none 50 2 "FF00AA11" 0).1).getD
    (createInitialState "FF00AA11" 50 2)

/-- Full-game run: Alice joined. -/
def g1 : RoomState := (handleJoin g0 "Alice" "pa" "sa" 1).1

/-- Full-game run: Bob joined. -/
def g2 : RoomState := (handleJoin g1 "Bob" "pb" "sb" 2).1

/-- Full-game run: Alice ready. -/
def g3 : RoomState := (handleReady g2 (some "pa") (some "sa") 3).1

/-- Full-game run: Bob ready. -/
def g4 : RoomState := (handleReady g3 (some "pb") (some "sb") 4).1

/-- Full-game run: started. -/
def g5 : RoomState := (handleStart g4 (some "pa") (some "sa") 5).1

/-- One round in which Alice is captain, rolls a failing byte, and Bob
leaves. -/
def oddRound (s : RoomState) (ts : Nat) : RoomState :=
  (handleAction
    ((handleAction s (some "pa") (some "sa") ActionType.CAPTAIN_ROLL 0 ts).1)
    (some "pb") (some "sb") ActionType.LEAVE 0 ts).1

/-- One round in which Bob is captain, rolls a succeeding byte, and Alice
leaves. -/
def evenRound (s : RoomState) (ts : Nat) : RoomState :=
  (handleAction
    ((handleAction s (some "pb") (some "sb") ActionType.CAPTAIN_ROLL 60 ts).1)
    (some "pa") (some "sa") ActionType.LEAVE 0 ts).1

/-- Full-game run after round 1. -/
def g7 : RoomState := oddRound g5 6

/-- Full-game run after round 2. -/
def g9 : RoomState := evenRound g7 8

/-- Full-game run after round 3. -/
def g11 : RoomState := oddRound g9 10

/-- Full-game run after round 4. -/
def g13 : RoomState := evenRound g11 12

/-- Full-game run after round 5. -/
def g15 : RoomState := oddRound g13 14

/-- Full-game run after round 6. -/
def g17 : RoomState := evenRound g15 16

/-- Full-game run after round 7. -/
def g19 : RoomState := oddRound g17 18

/-- Full-game run after round 8. -/
def g21 : RoomState := evenRound g19 20

/-- Full-game run after round 9: Alice hit 0 points, Bob won by
attrition, the room is FINISHED. -/
def g23 : RoomState := oddRound g21 22

/-! ### Generic list lemmas -/

theorem find?_congr_mem {α : Type} (p q : α → Bool) :
    ∀ l : List α, (∀ x ∈ l, p x = q x) → l.find? p = l.find? q := by
  intro l
  induction l with
  | nil => intro _; rfl
  | cons a t ih =>
    intro h
    have ha := h a (List.mem_cons_self a t)
    rw [List.find?_cons, List.find?_cons, ha]
    cases q a with
    | true => rfl
    | false => exact ih fun x hx => h x (List.mem_cons_of_mem a hx)

theorem find?_eq_head_filter {α : Type} (p : α → Bool) :
    ∀ l : List α, l.find? p = (l.filter p).head? := by
  intro l
  induction l with
  | nil => rfl
  | cons a t ih =>
    rw [List.find?_cons, List.filter_cons]
    cases h : p a with
    | true => rfl
    | false => exact ih

/-! ### Lemmas about the stable descending sort in `checkWinCondition` -/

theorem firstMaxAux_none : ∀ {l : List Player}, firstMaxAux l = none → l = [] := by
  intro l h
  cases l with
  | nil => rfl
  | cons a t =>
    exfalso
    cases h2 : firstMaxAux t with
    | none =>
      simp only [firstMaxAux, h2] at h
      exact Option.noConfusion h
    | some m =>
      simp only [firstMaxAux, h2] at h
      by_cases hc : m.points ≤ a.points
      · rw [if_pos hc] at h; exact Option.noConfusion h
      · rw [if_neg hc] at h; exact Option.noConfusion h

theorem firstMaxAux_spec : ∀ {l : List Player} {m : Player},
    firstMaxAux l = some m → m ∈ l ∧ ∀ q ∈ l, q.points ≤ m.points := by
  intro l
  induction l with
  | nil => intro m h; exact Option.noConfusion h
  | cons a t ih =>
    intro m h
    cases h2 : firstMaxAux t with
    | none =>
      simp only [firstMaxAux, h2] at h
      have ha : a = m := Option.some.inj h
      have ht : t = [] := firstMaxAux_none h2
      subst ha; subst ht
      exact ⟨List.mem_cons_self a [], by
        intro q hq
        have : q = a := by simpa using hq
        subst this
        exact le_refl _⟩
    | some mx =>
      simp only [firstMaxAux, h2] at h
      obtain ⟨hmem, hmax⟩ := ih h2
      by_cases hc : mx.points ≤ a.points
      · rw [if_pos hc] at h
        have ha : a = m := Option.some.inj h
        subst ha
        refine ⟨List.mem_cons_self a t, ?_⟩
        intro q hq
        rcases List.mem_cons.mp hq with hqa | hqt
        · subst hqa; exact le_refl _
        · exact le_trans (hmax q hqt) hc
      · rw [if_neg hc] at h
        have hmx : mx = m := Option.some.inj h
        subst hmx
        refine ⟨List.mem_cons_of_mem a hmem, ?_⟩
        intro q hq
        rcases List.mem_cons.mp hq with hqa | hqt
        · subst hqa; exact le_of_lt (lt_of_not_le hc)
        · exact hmax q hqt

theorem insertDesc_head (a : Player) (s : List Player) :
    (insertDesc a s).head? =
      match s.head? with
      | none => some a
      | some b => if b.points ≤ a.points then some a else some b := by
  cases s with
  | nil => rfl
  | cons b t =>
    rw [insertDesc]
    by_cases h : b.points ≤ a.points <;> simp [h]

theorem sortByPointsDesc_head :
    ∀ l : List Player, (sortByPointsDesc l).head? = firstMaxAux l := by
  intro l
  induction l with
  | nil => rfl
  | cons a t ih =>
    rw [sortByPointsDesc, insertDesc_head, ih]
    cases h2 : firstMaxAux t with
    | none => rw [firstMaxAux, h2]
    | some m => rw [firstMaxAux, h2]

theorem firstMaxAux_eq_find : ∀ l : List Player,
    firstMaxAux l = l.find? (fun p => l.all fun q => q.points ≤ p.points) := by
  intro l
  induction l with
  | nil => rfl
  | cons a t ih =>
    cases h2 : firstMaxAux t with
    | none =>
      have ht : t = [] := firstMaxAux_none h2
      subst ht
      simp [firstMaxAux, List.find?_cons, List.all_cons]
    | some mx =>
      simp only [firstMaxAux, h2]
      obtain ⟨hmem, hmax⟩ := firstMaxAux_spec h2
      by_cases hc : mx.points ≤ a.points
      · rw [if_pos hc]
        have hpa : ((a :: t).all fun q => decide (q.points ≤ a.points)) = true := by
          simp only [List.all_eq_true, decide_eq_true_iff]
          intro q hq
          rcases List.mem_cons.mp hq with hqa | hqt
          · subst hqa; exact le_refl _
          · exact le_trans (hmax q hqt) hc
        simp only [List.find?_cons, hpa]
      · rw [if_neg hc]
        have halt : a.points < mx.points := lt_of_not_le hc
        have hpa : ((a :: t).all fun q => decide (q.points ≤ a.points)) = false := by
          simp only [List.all_eq_false, decide_eq_true_iff]
          exact ⟨mx, List.mem_cons_of_mem a hmem, hc⟩
        simp only [List.find?_cons, hpa]
        rw [← h2, ih]
        apply find?_congr_mem
        intro x hx
        rw [List.all_cons]
        cases hall : t.all fun q => decide (q.points ≤ x.points) with
        | true =>
          have hx2 : mx.points ≤ x.points := by
            have := List.all_eq_true.mp hall mx hmem
            exact decide_eq_true_iff.mp this
          have : a.points ≤ x.points := le_of_lt (lt_of_lt_of_le halt hx2)
          simp [this]
        | false => simp

/-! ### Claim theorems for the pure rules engine -/

/-- C1: `checkWinCondition` evaluates in a fixed priority order.  (1) It
returns the id of the first player at or above the threshold when one
exists (regardless of `step` and of other players having more points);
(2) otherwise, at or past the step limit, the id of the first player with
maximal points (ties broken by first-in-list order); (3) otherwise the id
of the unique player with positive points when exactly one exists;
(4) otherwise `none`. -/
theorem checkWinCondition_priority (players : List Player) (step maxSteps : Nat)
    (winThreshold : Int) :
    checkWinCondition players step maxSteps winThreshold =
      match players.find? (fun p => winThreshold ≤ p.points) with
      | some w => some w.id
      | none =>
        if maxSteps ≤ step then
          (players.find? (fun p => players.all fun q => q.points ≤ p.points)).map
            (fun p => p.id)
        else if players.countP (fun p => 0 < p.points) = 1 then
          (players.find? (fun p => 0 < p.points)).map (fun p => p.id)
        else none := by
  rw [checkWinCondition]
  cases players.find? (fun p => winThreshold ≤ p.points) with
  | some w => rfl
  | none =>
    by_cases hst : maxSteps ≤ step
    · simp only [if_pos hst]
      rw [sortByPointsDesc_head, firstMaxAux_eq_find]
    · simp only [if_neg hst]
      rw [find?_eq_head_filter]
      have hcount : players.countP (fun p => decide (0 < p.points)) =
          (players.filter fun p => decide (0 < p.points)).length :=
        List.countP_eq_length_filter _ _
      cases hf : players.filter fun p => decide (0 < p.points) with
      | nil => simp [hcount, hf]
      | cons x xs =>
        cases xs with
        | nil => simp [hcount, hf]
        | cons y ys => simp [hcount, hf]

/-- C4: every roll has a value in `[1, 100]`, succeeds exactly when the
value is at least 40, and the value is `byte % 100 + 1`. -/
theorem rollChallenge_bounds (byte ts : Nat) :
    1 ≤ (rollChallenge byte ts).value ∧
    (rollChallenge byte ts).value ≤ 100 ∧
    ((rollChallenge byte ts).success = true ↔ 40 ≤ (rollChallenge byte ts).value) ∧
    (rollChallenge byte ts).value = byte % 100 + 1 := by
  have h : byte % 100 < 100 := Nat.mod_lt _ (by omega)
  refine ⟨?_, ?_, ?_, rfl⟩
  · simp [rollChallenge]
  · simp only [rollChallenge]; omega
  · simp [rollChallenge, GAME_CONFIG.SUCCESS_THRESHOLD]

/-- C6: `collectStakes` returns a pot of `stake` times the number of
players and subtracts exactly `stake` from each player, with no clamping
at zero and all other fields unchanged. -/
theorem collectStakes_effects (players : List Player) (stake : Int) :
    (collectStakes players stake).pot = stake * players.length ∧
    (collectStakes players stake).players.map Player.points
      = players.map (fun p => p.points - stake) ∧
    (collectStakes players stake).players.map
        (fun p => (p.id, p.secret, p.nickname, p.ready, p.connected))
      = players.map (fun p => (p.id, p.secret, p.nickname, p.ready, p.connected)) := by
  refine ⟨rfl, ?_, ?_⟩ <;> rw [collectStakes, List.map_map] <;> rfl

/-- Helper for C2 and the global invariant: when every input player has
non-negative points, so does every output player of `resolveRound`. -/
theorem resolveRound_nonneg (players : List Player)
    (ds : List (String × Decision)) (roll : RollResult)
    (h : ∀ p ∈ players, 0 ≤ p.points) :
    ∀ q ∈ resolveRound players ds roll, 0 ≤ q.points := by
  intro q hq
  obtain ⟨p, hp, rfl⟩ := List.mem_map.mp hq
  cases hd : getDecision ds p.id with
  | none => simp only [hd]; exact h p hp
  | some d =>
    cases d with
    | STAY => simp only [hd]; exact le_max_left _ _
    | LEAVE => simp only [hd]; exact h p hp

/-- C2 (amended): `resolveRound` leaves LEAVE and undecided players
unchanged, clamps STAY players at `max 0 (points ± delta)`, and therefore
never produces a negative points value when every input player is
non-negative. -/
theorem resolveRound_pointwise (players : List Player)
    (ds : List (String × Decision)) (roll : RollResult) :
    (resolveRound players ds roll).length = players.length ∧
    (∀ i, (hi : i < players.length) →
      (hj : i < (resolveRound players ds roll).length) →
      (getDecision ds (players.get ⟨i, hi⟩).id = some Decision.LEAVE →
        (resolveRound players ds roll).get ⟨i, hj⟩ = players.get ⟨i, hi⟩) ∧
      (getDecision ds (players.get ⟨i, hi⟩).id = some Decision.STAY →
        ((resolveRound players ds roll).get ⟨i, hj⟩).points =
          (if roll.success then max 0 ((players.get ⟨i, hi⟩).points + 5)
           else max 0 ((players.get ⟨i, hi⟩).points - 10))) ∧
      (getDecision ds (players.get ⟨i, hi⟩).id = none →
        (resolveRound players ds roll).get ⟨i, hj⟩ = players.get ⟨i, hi⟩)) ∧
    ((∀ p ∈ players, 0 ≤ p.points) →
      ∀ q ∈ resolveRound players ds roll, 0 ≤ q.points) := by
  refine ⟨by simp [resolveRound], ?_, resolveRound_nonneg players ds roll⟩
  intro i hi hj
  have hget : (resolveRound players ds roll).get ⟨i, hj⟩ =
      (fun player =>
        match getDecision ds player.id with
        | some Decision.LEAVE => player
        | some Decision.STAY =>
            let pointChange : Int :=
              if roll.success then GAME_CONFIG.SUCCESS_REWARD
              else -GAME_CONFIG.FAILURE_PENALTY
            { player with points := max 0 (player.points + pointChange) }
        | none => player) (players.get ⟨i, hi⟩) := by
    simp [resolveRound, List.get_eq_getElem, List.getElem_map]
  refine ⟨?_, ?_, ?_⟩ <;> intro hd <;> rw [hget] <;> simp only [hd]
  cases hs : roll.success
  all_goals simp [hs, GAME_CONFIG.SUCCESS_REWARD, GAME_CONFIG.FAILURE_PENALTY]
  all_goals omega

/-- C2 counterexample: the claim that `resolveRound` never produces a
negative points value fails as stated, because a player who is unchanged
(here: no recorded decision) keeps a negative input value. -/
theorem resolveRound_negative_cex :
    ¬ (∀ q ∈ resolveRound [cexPlayer] [] cexRoll, 0 ≤ q.points) := by
  decide

/-- Witness for C2: evaluating the STAY clause on a successful roll for a
player at 100 points yields 105. -/
theorem resolveRound_pointwise_witness :
    ((resolveRound wPlayers wDecisions wRoll).get ⟨0, by decide⟩).points = 105 := by
  have h :=
    ((resolveRound_pointwise wPlayers wDecisions wRoll).2.1 0 (by decide)
      (by decide)).2.1 (by decide)
  rw [h]
  decide

/-- C10: `resolveRound` preserves the length and order of the player list
and every field other than `points`. -/
theorem resolveRound_frame (players : List Player)
    (ds : List (String × Decision)) (roll : RollResult) :
    (resolveRound players ds roll).length = players.length ∧
    (resolveRound players ds roll).map
        (fun p => (p.id, p.secret, p.nickname, p.ready, p.connected))
      = players.map (fun p => (p.id, p.secret, p.nickname, p.ready, p.connected)) := by
  constructor
  · simp [resolveRound]
  · rw [resolveRound, List.map_map]
    apply List.map_congr_left
    intro p _
    cases hd : getDecision ds p.id with
    | none => simp [Function.comp, hd]
    | some d => cases d <;> simp [Function.comp, hd]

/-- Helper for C9: iterating the captain rotation `k` times starting
below `n` lands on `(i + k) % n`. -/
theorem getNextCaptain_iterate (n : Nat) :
    ∀ (k i : Nat), i < n →
      (fun j => getNextCaptain j n)^[k] i = (i + k) % n := by
  intro k
  induction k with
  | zero => intro i hi; simp [Nat.mod_eq_of_lt hi]
  | succ k ih =>
    intro i hi
    have hn : 0 < n := by omega
    rw [Function.iterate_succ_apply]
    have h1 : getNextCaptain i n < n := Nat.mod_lt _ hn
    rw [ih _ h1]
    show ((i + 1) % n + k) % n = (i + (k + 1)) % n
    rw [Nat.mod_add_mod]
    congr 1
    omega

/-- C9: for `0 < n` the rotation `getNextCaptain · n` maps `[0, n)` into
itself, has period `n` (iterating `n` times is the identity there), and is
injective on `[0, n)` — hence a bijection on `[0, n)`. -/
theorem getNextCaptain_cycle (n : Nat) (hn : 0 < n) (i : Nat) (hi : i < n) :
    getNextCaptain i n < n ∧
    (fun j => getNextCaptain j n)^[n] i = i ∧
    ∀ j, j < n → getNextCaptain i n = getNextCaptain j n → i = j := by
  have hmem : ∀ m, m < n → getNextCaptain m n < n := fun m _ => Nat.mod_lt _ hn
  have hper : ∀ m, m < n → (fun j => getNextCaptain j n)^[n] m = m := by
    intro m hm
    rw [getNextCaptain_iterate n n m hm, Nat.add_mod_right, Nat.mod_eq_of_lt hm]
  refine ⟨hmem i hi, hper i hi, ?_⟩
  intro j hj heq
  have hn1 : n - 1 + 1 = n := by omega
  have ha : (fun j => getNextCaptain j n)^[n - 1] (getNextCaptain i n) = i := by
    have h : (fun j => getNextCaptain j n)^[n - 1 + 1] i = i := by
      rw [hn1]; exact hper i hi
    rw [Function.iterate_succ_apply] at h
    exact h
  have hb : (fun j => getNextCaptain j n)^[n - 1] (getNextCaptain j n) = j := by
    have h : (fun j => getNextCaptain j n)^[n - 1 + 1] j = j := by
      rw [hn1]; exact hper j hj
    rw [Function.iterate_succ_apply] at h
    exact h
  rw [heq] at ha
  exact ha.symm.trans hb

/-- Witness for C9 at `n = 4`, `i = 2`. -/
theorem getNextCaptain_cycle_witness :
    getNextCaptain 2 4 < 4 ∧ (fun j => getNextCaptain j 4)^[4] 2 = 2 :=
  ⟨(getNextCaptain_cycle 4 (by decide) 2 (by decide)).1,
   (getNextCaptain_cycle 4 (by decide) 2 (by decide)).2.1⟩

/-- C5: a successful `start` was called by the host in LOBBY with at
least two players, all ready; it sets the pot to `stake` times the number
of players, deducts the stake from every player, and transitions to
PLAYING / CAPTAIN_TURN with `step = 1`, `captainIndex = 0` and cleared
decisions. -/
theorem handleStart_success_effects (s : RoomState)
    (playerId playerSecret : Option String) (ts : Nat)
    (h : (handleStart s playerId playerSecret ts).2 = Except.ok ()) :
    playerId = some s.hostId ∧
    s.status = Status.LOBBY ∧
    2 ≤ s.players.length ∧
    (∀ p ∈ s.players, p.ready = true) ∧
    (handleStart s playerId playerSecret ts).1.pot = s.stake * s.players.length ∧
    (handleStart s playerId playerSecret ts).1.players.map Player.points
      = s.players.map (fun p => p.points - s.stake) ∧
    (handleStart s playerId playerSecret ts).1.status = Status.PLAYING ∧
    (handleStart s playerId playerSecret ts).1.phase = Phase.CAPTAIN_TURN ∧
    (handleStart s playerId playerSecret ts).1.step = 1 ∧
    (handleStart s playerId playerSecret ts).1.captainIndex = 0 ∧
    (handleStart s playerId playerSecret ts).1.decisions = [] := by
  cases playerId with
  | none =>
    simp only [handleStart] at h
    split at h <;> simp at h
  | some pid =>
    cases playerSecret with
    | none =>
      simp only [handleStart] at h
      split at h <;> simp at h
    | some sec =>
      simp only [handleStart] at h ⊢
      by_cases h1 : s.status ≠ Status.LOBBY
      · rw [if_pos h1] at h
        simp at h
      · rw [if_neg h1] at h ⊢
        have hlob : s.status = Status.LOBBY := not_not.mp h1
        by_cases h2 : pid ≠ s.hostId
        · rw [if_pos h2] at h
          simp at h
        · rw [if_neg h2] at h ⊢
          have hpid : pid = s.hostId := not_not.mp h2
          cases hv : validatePlayer s pid sec with
          | none =>
            simp only [hv] at h
            simp at h
          | some pl =>
            simp only [hv] at h ⊢
            by_cases h3 : s.players.length < GAME_CONFIG.MIN_PLAYERS
            · rw [if_pos h3] at h
              simp at h
            · rw [if_neg h3] at h ⊢
              cases hall : s.players.all fun p => p.ready with
              | false =>
                simp only [hall, Bool.not_false, if_pos] at h
                simp at h
              | true =>
                simp only [hall, Bool.not_true, Bool.false_eq_true, if_false] at h ⊢
                refine ⟨by rw [hpid], hlob, ?_, ?_, ?_, ?_, rfl, rfl, rfl, rfl, rfl⟩
                · simp [GAME_CONFIG.MIN_PLAYERS] at h3
                  omega
                · exact fun p hp => List.all_eq_true.mp hall p hp
                · simp [logEvent, collectStakes]
                · simp [logEvent, collectStakes, List.map_map]

/-- Witness for C5: concrete Scenario 1 (stake 10, Alice and Bob at 100
points, both ready): the pot becomes 20, both players drop to 90 points,
and the room is PLAYING / CAPTAIN_TURN with captain 0. -/
theorem handleStart_success_witness :
    (handleStart scenario1 (some "pa") (some "sa") 5).1.pot = 20 ∧
    (handleStart scenario1 (some "pa") (some "sa") 5).1.players.map Player.points
      = [90, 90] ∧
    (handleStart scenario1 (some "pa") (some "sa") 5).1.status = Status.PLAYING ∧
    (handleStart scenario1 (some "pa") (some "sa") 5).1.phase = Phase.CAPTAIN_TURN ∧
    (handleStart scenario1 (some "pa") (some "sa") 5).1.captainIndex = 0 := by
  have h := handleStart_success_effects scenario1 (some "pa") (some "sa") 5 (by rfl)
  refine ⟨?_, ?_, h.2.2.2.2.2.2.1, h.2.2.2.2.2.2.2.1, h.2.2.2.2.2.2.2.2.2.1⟩
  · rw [h.2.2.2.2.1]
    decide
  · rw [h.2.2.2.2.2.1]
    decide

/-- C8 (amended): when the current captain sends STAY or LEAVE during the
DECISIONS phase, the request is rejected with the 400 response "Captain
cannot change decision" — the same status class the handlers use for
state errors, not the 401/403 used for authentication and authorization
failures — and the room state is returned completely unchanged. -/
theorem handleAction_captain_decision_rejected (s : RoomState)
    (pid sec : String) (ty : ActionType) (byte ts : Nat)
    (hstatus : s.status = Status.PLAYING)
    (hval : (validatePlayer s pid sec).isSome = true)
    (hcap : (s.players.get? s.captainIndex).map Player.id = some pid)
    (hphase : s.phase = Phase.DECISIONS)
    (hty : ty = ActionType.STAY ∨ ty = ActionType.LEAVE) :
    handleAction s (some pid) (some sec) ty byte ts =
      (s, Except.error { status := 400, error := "Captain cannot change decision" }) := by
  obtain ⟨pl, hpl⟩ := Option.isSome_iff_exists.mp hval
  obtain ⟨captain, hcget, hcid⟩ := Option.map_eq_some'.mp hcap
  rcases hty with h | h <;> subst h <;>
    (simp only [handleAction, hpl, hcget]
     rw [if_neg (by simp [hstatus]), if_neg (by simp [hphase]),
       if_pos hcid.symm])

/-- Witness for C8: in the concrete Scenario-1 room after the captain has
rolled (phase DECISIONS), the captain sending STAY is rejected with the
400 response and the state is unchanged. -/
theorem handleAction_captain_decision_rejected_witness :
    handleAction decisionsState (some "pa") (some "sa") ActionType.STAY 0 8 =
      (decisionsState,
        Except.error { status := 400, error := "Captain cannot change decision" }) :=
  handleAction_captain_decision_rejected decisionsState "pa" "sa"
    ActionType.STAY 0 8 (by decide) (by decide) (by decide) (by decide)
    (Or.inl rfl)

/-- C8 counterexample: the rejection of a captain STAY in phase DECISIONS
carries HTTP status 400, which is not one of the 401/403 statuses the
handlers use for authentication and authorization errors — so the claim
that this rejection is an AuthError fails on the code. -/
theorem handleAction_captain_decision_cex :
    (handleAction decisionsState (some "pa") (some "sa") ActionType.STAY 0 8).2 =
      Except.error { status := 400, error := "Captain cannot change decision" } ∧
    ¬ (400 ∈ authErrorStatuses) :=
  ⟨rfl, by decide⟩

/-! ### The global invariant (C3, C7) -/

theorem updateFirst_map_points (f : Player → Player) (pid : String)
    (hf : ∀ p, (f p).points = p.points) :
    ∀ l : List Player,
      (updateFirst f pid l).map Player.points = l.map Player.points := by
  intro l
  induction l with
  | nil => rfl
  | cons p rest ih =>
    rw [updateFirst]
    by_cases h : p.id = pid
    · rw [if_pos h]
      simp [hf]
    · rw [if_neg h]
      simp [ih]

theorem points_pred_of_map_eq {l1 l2 : List Player} (P : Int → Prop)
    (hmap : l1.map Player.points = l2.map Player.points)
    (h : ∀ p ∈ l2, P p.points) : ∀ p ∈ l1, P p.points := by
  intro p hp
  have hm : p.points ∈ l1.map Player.points := List.mem_map_of_mem _ hp
  rw [hmap] at hm
  obtain ⟨q, hq, he⟩ := List.mem_map.mp hm
  rw [← he]
  exact h q hq

theorem distributePot_nonneg (players : List Player) (winnerId : String)
    (pot : Int) (hpot : 0 ≤ pot) (h : ∀ p ∈ players, 0 ≤ p.points) :
    ∀ q ∈ distributePot players winnerId pot, 0 ≤ q.points := by
  intro q hq
  obtain ⟨p, hp, rfl⟩ := List.mem_map.mp hq
  by_cases hid : p.id = winnerId
  · have := h p hp
    simp only [if_pos hid]
    show 0 ≤ p.points + pot
    omega
  · simp only [if_neg hid]
    exact h p hp

theorem inv_handleCreate {stake : Int} {maxPlayers : Nat} {roomToken : String}
    {ts : Nat} {s : RoomState}
    (h : (handleCreate none stake maxPlayers roomToken ts).1 = some s) :
    Inv s := by
  simp only [handleCreate] at h
  by_cases h1 : stake = 0 ∨ stake < GAME_CONFIG.MIN_STAKE ∨
      GAME_CONFIG.MAX_STAKE < stake
  · rw [if_pos h1] at h
    exact absurd h (by simp)
  · rw [if_neg h1] at h
    by_cases h2 : maxPlayers = 0 ∨ maxPlayers < GAME_CONFIG.MIN_PLAYERS ∨
        GAME_CONFIG.MAX_PLAYERS < maxPlayers
    · rw [if_pos h2] at h
      exact absurd h (by simp)
    · rw [if_neg h2] at h
      have hs := (Option.some.inj h).symm
      subst hs
      push_neg at h1
      obtain ⟨hne, hlo, hhi⟩ := h1
      refine ⟨?_, ?_, hlo, hhi, le_refl 0, by simp [logEvent, createInitialState]⟩
      · intro p hp
        simp [logEvent, createInitialState] at hp
      · intro _ p hp
        simp [logEvent, createInitialState] at hp

theorem inv_handleJoin {s : RoomState} (hInv : Inv s)
    (nickname pid secret : String) (ts : Nat) :
    Inv (handleJoin s nickname pid secret ts).1 := by
  obtain ⟨hpts, hlobby, hmin, hmax, hpot, hwin⟩ := hInv
  simp only [handleJoin]
  by_cases h1 : s.status ≠ Status.LOBBY
  · rw [if_pos h1]
    exact ⟨hpts, hlobby, hmin, hmax, hpot, hwin⟩
  · rw [if_neg h1]
    by_cases h2 : s.maxPlayers ≤ s.players.length
    · rw [if_pos h2]
      exact ⟨hpts, hlobby, hmin, hmax, hpot, hwin⟩
    · rw [if_neg h2]
      by_cases h3 : nickname = "" ∨ (jsTrim nickname).length < 1 ∨
          20 < (jsTrim nickname).length
      · rw [if_pos h3]
        exact ⟨hpts, hlobby, hmin, hmax, hpot, hwin⟩
      · rw [if_neg h3]
        by_cases h4 : s.players.any
            (fun p => jsToLower p.nickname = jsToLower (jsTrim nickname)) = true
        · rw [if_pos h4]
          exact ⟨hpts, hlobby, hmin, hmax, hpot, hwin⟩
        · rw [if_neg h4]
          refine ⟨?_, ?_, hmin, hmax, hpot, hwin⟩
          · intro p hp
            rcases List.mem_append.mp hp with hp | hp
            · exact hpts p hp
            · rw [List.mem_singleton] at hp
              subst hp
              show (0 : Int) ≤ GAME_CONFIG.STARTING_POINTS
              decide
          · intro hl p hp
            rcases List.mem_append.mp hp with hp | hp
            · exact hlobby hl p hp
            · rw [List.mem_singleton] at hp
              subst hp
              rfl

theorem inv_handleReady {s : RoomState} (hInv : Inv s)
    (playerId playerSecret : Option String) (ts : Nat) :
    Inv (handleReady s playerId playerSecret ts).1 := by
  obtain ⟨hpts, hlobby, hmin, hmax, hpot, hwin⟩ := hInv
  simp only [handleReady]
  by_cases h1 : s.status ≠ Status.LOBBY
  · rw [if_pos h1]
    exact ⟨hpts, hlobby, hmin, hmax, hpot, hwin⟩
  · rw [if_neg h1]
    cases playerId with
    | none => exact ⟨hpts, hlobby, hmin, hmax, hpot, hwin⟩
    | some pid =>
      cases playerSecret with
      | none => exact ⟨hpts, hlobby, hmin, hmax, hpot, hwin⟩
      | some sec =>
        cases hv : validatePlayer s pid sec with
        | none =>
          simp only [hv]
          exact ⟨hpts, hlobby, hmin, hmax, hpot, hwin⟩
        | some pl =>
          simp only [hv]
          have hmap := updateFirst_map_points
            (fun p => { p with ready := !p.ready }) pid (fun p => rfl) s.players
          refine ⟨?_, ?_, hmin, hmax, hpot, hwin⟩
          · show ∀ p ∈ updateFirst (fun p => { p with ready := !p.ready })
                pid s.players, 0 ≤ p.points
            exact points_pred_of_map_eq (fun x => 0 ≤ x) hmap hpts
          · intro hl
            show ∀ p ∈ updateFirst (fun p => { p with ready := !p.ready })
                pid s.players, p.points = GAME_CONFIG.STARTING_POINTS
            exact points_pred_of_map_eq
              (fun x => x = GAME_CONFIG.STARTING_POINTS) hmap (hlobby hl)

theorem inv_resolveAndAdvance {s : RoomState} (hInv : Inv s)
    (hstatus : s.status = Status.PLAYING) (ts : Nat) :
    Inv (resolveAndAdvance s ts) := by
  obtain ⟨hpts, hlobby, hmin, hmax, hpot, hwin⟩ := hInv
  cases hroll : s.lastRoll with
  | none =>
    simp only [resolveAndAdvance, hroll]
    exact ⟨hpts, hlobby, hmin, hmax, hpot, hwin⟩
  | some roll =>
    simp only [resolveAndAdvance, hroll]
    have hpts2 : ∀ p ∈ resolveRound s.players s.decisions roll, 0 ≤ p.points :=
      resolveRound_nonneg _ _ _ hpts
    have hwn : s.winnerId = none := by
      cases hx : s.winnerId with
      | none => rfl
      | some w =>
        have hfin := hwin.mp (by simp [hx])
        rw [hstatus] at hfin
        exact Status.noConfusion hfin
    cases hw : checkWinCondition (resolveRound s.players s.decisions roll)
        s.step s.maxSteps s.winThreshold with
    | none =>
      simp only [hw]
      refine ⟨hpts2, ?_, hmin, hmax, hpot, ?_⟩
      · intro hl
        have hl' : s.status = Status.LOBBY := hl
        rw [hstatus] at hl'
        exact Status.noConfusion hl'
      · show s.winnerId ≠ none ↔ s.status = Status.FINISHED
        exact hwin
    | some winnerId =>
      simp only [hw]
      by_cases hwe : winnerId = ""
      · rw [if_pos hwe]
        refine ⟨hpts2, ?_, hmin, hmax, hpot, ?_⟩
        · intro hl
          have hl' : s.status = Status.LOBBY := hl
          rw [hstatus] at hl'
          exact Status.noConfusion hl'
        · show s.winnerId ≠ none ↔ s.status = Status.FINISHED
          exact hwin
      · rw [if_neg hwe]
        refine ⟨?_, ?_, hmin, hmax, le_refl 0, ?_⟩
        · show ∀ p ∈ distributePot (resolveRound s.players s.decisions roll)
              winnerId s.pot, 0 ≤ p.points
          exact distributePot_nonneg _ _ _ hpot hpts2
        · intro hl
          have hl' : Status.FINISHED = Status.LOBBY := hl
          exact Status.noConfusion hl'
        · show (some winnerId ≠ none) ↔ (Status.FINISHED = Status.FINISHED)
          simp

theorem inv_handleStart {s : RoomState} (hInv : Inv s)
    (playerId playerSecret : Option String) (ts : Nat) :
    Inv (handleStart s playerId playerSecret ts).1 := by
  obtain ⟨hpts, hlobby, hmin, hmax, hpot, hwin⟩ := hInv
  have hs : Inv s := ⟨hpts, hlobby, hmin, hmax, hpot, hwin⟩
  cases playerId with
  | none =>
    cases playerSecret with
    | none =>
      simp only [handleStart]
      by_cases h1 : s.status ≠ Status.LOBBY
      · rw [if_pos h1]; exact hs
      · rw [if_neg h1]; exact hs
    | some sec =>
      simp only [handleStart]
      by_cases h1 : s.status ≠ Status.LOBBY
      · rw [if_pos h1]; exact hs
      · rw [if_neg h1]; exact hs
  | some pid =>
    cases playerSecret with
    | none =>
      simp only [handleStart]
      by_cases h1 : s.status ≠ Status.LOBBY
      · rw [if_pos h1]; exact hs
      · rw [if_neg h1]; exact hs
    | some sec =>
      simp only [handleStart]
      by_cases h1 : s.status ≠ Status.LOBBY
      · rw [if_pos h1]; exact hs
      · rw [if_neg h1]
        have hlob : s.status = Status.LOBBY := not_not.mp h1
        by_cases h2 : pid ≠ s.hostId
        · rw [if_pos h2]; exact hs
        · rw [if_neg h2]
          cases hv : validatePlayer s pid sec with
          | none => simp only [hv]; exact hs
          | some pl =>
            simp only [hv]
            by_cases h3 : s.players.length < GAME_CONFIG.MIN_PLAYERS
            · rw [if_pos h3]; exact hs
            · rw [if_neg h3]
              cases hall : s.players.all fun p => p.ready with
              | false =>
                simp only [hall, Bool.not_false, if_pos]
                exact hs
              | true =>
                simp only [hall, Bool.not_true, Bool.false_eq_true, if_false]
                have h100 := hlobby hlob
                refine ⟨?_, ?_, hmin, hmax, ?_, ?_⟩
                · show ∀ p ∈ (collectStakes s.players s.stake).players,
                      0 ≤ p.points
                  intro q hq
                  obtain ⟨p, hp, rfl⟩ := List.mem_map.mp hq
                  show 0 ≤ p.points - s.stake
                  have hp100 : p.points = 100 := by
                    simpa [GAME_CONFIG.STARTING_POINTS] using h100 p hp
                  have hmax' : s.stake ≤ 50 := by
                    simpa [GAME_CONFIG.MAX_STAKE] using hmax
                  omega
                · intro hl
                  have hl' : Status.PLAYING = Status.LOBBY := hl
                  exact Status.noConfusion hl'
                · show 0 ≤ s.stake * (s.players.length : Int)
                  have hmin' : (5 : Int) ≤ s.stake := by
                    simpa [GAME_CONFIG.MIN_STAKE] using hmin
                  exact mul_nonneg (by omega) (Int.natCast_nonneg _)
                · have hwn : s.winnerId = none := by
                    cases hx : s.winnerId with
                    | none => rfl
                    | some w =>
                      have hfin := hwin.mp (by simp [hx])
                      rw [hlob] at hfin
                      exact Status.noConfusion hfin
                  show s.winnerId ≠ none ↔ Status.PLAYING = Status.FINISHED
                  simp [hwn]

theorem inv_handleAction {s : RoomState} (hInv : Inv s)
    (playerId playerSecret : Option String) (ty : ActionType) (byte ts : Nat) :
    Inv (handleAction s playerId playerSecret ty byte ts).1 := by
  obtain ⟨hpts, hlobby, hmin, hmax, hpot, hwin⟩ := hInv
  have hs : Inv s := ⟨hpts, hlobby, hmin, hmax, hpot, hwin⟩
  simp only [handleAction]
  split
  · exact hs
  · rename_i h1
    have hstat : s.status = Status.PLAYING := not_not.mp h1
    split
    · rename_i pid sec
      repeat
        first
        | exact hs
        | ((refine inv_resolveAndAdvance ?_ ?_ ts) <;>
            (first | exact hs | exact hstat))
        | split
    · exact hs

theorem inv_wsConnect {s : RoomState} (hInv : Inv s)
    (playerId playerSecret : Option String) :
    Inv (wsConnect s playerId playerSecret) := by
  obtain ⟨hpts, hlobby, hmin, hmax, hpot, hwin⟩ := hInv
  have hs : Inv s := ⟨hpts, hlobby, hmin, hmax, hpot, hwin⟩
  cases playerId with
  | none => exact hs
  | some pid =>
    cases playerSecret with
    | none => exact hs
    | some sec =>
      simp only [wsConnect]
      cases hv : validatePlayer s pid sec with
      | none => simp only [hv]; exact hs
      | some pl =>
        simp only [hv]
        have hmap := updateFirst_map_points
          (fun p => { p with connected := true }) pid (fun p => rfl) s.players
        refine ⟨?_, ?_, hmin, hmax, hpot, hwin⟩
        · show ∀ p ∈ updateFirst (fun p => { p with connected := true })
              pid s.players, 0 ≤ p.points
          exact points_pred_of_map_eq (fun x => 0 ≤ x) hmap hpts
        · intro hl
          show ∀ p ∈ updateFirst (fun p => { p with connected := true })
              pid s.players, p.points = GAME_CONFIG.STARTING_POINTS
          exact points_pred_of_map_eq
            (fun x => x = GAME_CONFIG.STARTING_POINTS) hmap (hlobby hl)

theorem inv_wsDisconnect {s : RoomState} (hInv : Inv s) (pid : String) :
    Inv (wsDisconnect s pid) := by
  obtain ⟨hpts, hlobby, hmin, hmax, hpot, hwin⟩ := hInv
  have hmap := updateFirst_map_points
    (fun p => { p with connected := false }) pid (fun p => rfl) s.players
  refine ⟨?_, ?_, hmin, hmax, hpot, hwin⟩
  · show ∀ p ∈ updateFirst (fun p => { p with connected := false })
        pid s.players, 0 ≤ p.points
    exact points_pred_of_map_eq (fun x => 0 ≤ x) hmap hpts
  · intro hl
    show ∀ p ∈ updateFirst (fun p => { p with connected := false })
        pid s.players, p.points = GAME_CONFIG.STARTING_POINTS
    exact points_pred_of_map_eq
      (fun x => x = GAME_CONFIG.STARTING_POINTS) hmap (hlobby hl)

theorem reachable_inv : ∀ {s : RoomState}, Reachable s → Inv s := by
  intro s h
  induction h with
  | create h => exact inv_handleCreate h
  | join hr ih => exact inv_handleJoin ih _ _ _ _
  | ready hr ih => exact inv_handleReady ih _ _ _
  | start hr ih => exact inv_handleStart ih _ _ _
  | action hr ih => exact inv_handleAction ih _ _ _ _ _
  | connect hr ih => exact inv_wsConnect ih _ _
  | disconnect hr ih => exact inv_wsDisconnect ih _

set_option maxRecDepth 10000 in
/-- The complete concrete game run `g23` is reachable through the actor
operations. -/
theorem reachable_g23 : Reachable g23 := by
  have r0 : Reachable g0 := @Reachable.create 50 2 "FF00AA11" 0 g0 (by rfl)
  have r1 : Reachable g1 := Reachable.join r0
  have r2 : Reachable g2 := Reachable.join r1
  have r3 : Reachable g3 := Reachable.ready r2
  have r4 : Reachable g4 := Reachable.ready r3
  have r5 : Reachable g5 := Reachable.start r4
  have r7 : Reachable g7 := Reachable.action (Reachable.action r5)
  have r9 : Reachable g9 := Reachable.action (Reachable.action r7)
  have r11 : Reachable g11 := Reachable.action (Reachable.action r9)
  have r13 : Reachable g13 := Reachable.action (Reachable.action r11)
  have r15 : Reachable g15 := Reachable.action (Reachable.action r13)
  have r17 : Reachable g17 := Reachable.action (Reachable.action r15)
  have r19 : Reachable g19 := Reachable.action (Reachable.action r17)
  have r21 : Reachable g21 := Reachable.action (Reachable.action r19)
  exact Reachable.action (Reachable.action r21)

/-- C3: in every room state reachable through the actor operations, no
player holds a negative points value. -/
theorem reachable_points_nonneg (s : RoomState) (h : Reachable s) :
    ∀ p ∈ s.players, 0 ≤ p.points :=
  (reachable_inv h).1

set_option maxRecDepth 10000 in
/-- Witness for C3: in the finished concrete game `g23`, the first player
(who lost every stayed round and was clamped at zero) has non-negative
points. -/
theorem reachable_points_nonneg_witness :
    0 ≤ (g23.players.get ⟨0, by decide⟩).points :=
  reachable_points_nonneg g23 reachable_g23 _ (List.get_mem _ _ _)

/-- C7: in every room state reachable through the actor operations, the
winner is recorded exactly when the room is FINISHED. -/
theorem reachable_winner_iff_finished (s : RoomState) (h : Reachable s) :
    s.winnerId ≠ none ↔ s.status = Status.FINISHED :=
  (reachable_inv h).2.2.2.2.2

set_option maxRecDepth 10000 in
/-- Witness for C7: the finished concrete game `g23` has
`winnerId = some "pb"`, so the theorem forces its status to be
FINISHED. -/
theorem reachable_winner_iff_finished_witness : g23.status = Status.FINISHED :=
  (reachable_winner_iff_finished g23 reachable_g23).mp (by decide)

end FortuneRush
